import Mathlib

/-!
Shallow embedding of the minirpc repository (Go) and proofs about its
specification claims.  Each Go function that a claim refers to is translated
into an executable Lean definition; machine integers are modelled as `Nat`
(no overflow is relevant to any claim), Go errors as `Option String` or
`Except String`, and Go panics as an explicit outcome constructor.
-/

namespace MiniRpc

/-! ## Codec: `GobCodec.Write` (src/codec/gob.go)

`Write` encodes the header, then the body, into a buffered writer.  A deferred
function always flushes the buffer and, when the named return value `err` is
non-nil, closes the underlying stream.  A header-encode failure returns the
error (so the defer closes the stream).  A body-encode failure calls
`log.Panicln`, which panics; the deferred function then runs (flushing, but
seeing `err = nil`, hence not closing) and the panic propagates.  The
`return nil` after `log.Panicln` is unreachable. -/

/-- Outcome of `GobCodec.Write`: normal return carrying the Go error value,
or a propagating panic. -/
inductive WriteResult where
  | ok : WriteResult
  | errReturned (msg : String) : WriteResult
  | panicked (msg : String) : WriteResult
deriving DecidableEq, Repr

/-- Observable effect of one `GobCodec.Write` call: whether the buffered
writer was flushed, whether the underlying stream was closed, and how the
call finished. -/
structure WriteEffect where
  flushed : Bool
  closed : Bool
  result : WriteResult
deriving DecidableEq, Repr

/-- `headerEncErr`/`bodyEncErr`: the gob encoder's error for the header/body
(`none` = encoding succeeded).  Mirrors `GobCodec.Write` line by line:
the defer always flushes; it closes only when the named return is non-nil. -/
def gobCodecWrite (headerEncErr bodyEncErr : Option String) : WriteEffect :=
  match headerEncErr with
  | some e => { flushed := true, closed := true, result := .errReturned e }
  | none =>
    match bodyEncErr with
    | some e => { flushed := true, closed := false, result := .panicked e }
    | none => { flushed := true, closed := false, result := .ok }

/-! ## Discovery: `MultiServerDiscovery.Get` (load-balancing part) -/

/-- `SelectMode` is a Go `int`; `RandomSelect = 0`, `RoundRobinSelect = 1`,
any other value hits the `default` branch. -/
def RandomSelect : Nat := 0

def RoundRobinSelect : Nat := 1

structure MultiServerDiscovery where
  servers : List String
  index : Nat
deriving Repr

/-- `MultiServerDiscovery.Get`.  `rnd` models the value drawn from
`d.r.Intn(n)` in the `RandomSelect` branch (always `< n` in Go; reduced
`% n` here so the definition is total, which is the identity on the real
range).  Returns the chosen server and the updated discovery state. -/
def MultiServerDiscovery.get (d : MultiServerDiscovery) (mode : Nat) (rnd : Nat) :
    Except String (String × MultiServerDiscovery) :=
  let n := d.servers.length
  if h : n = 0 then
    .error "rpc discovery: no available servers"
  else
    if mode = RandomSelect then
      .ok (d.servers.get ⟨rnd % n, Nat.mod_lt _ (Nat.pos_of_ne_zero h)⟩, d)
    else if mode = RoundRobinSelect then
      let s := d.servers.get ⟨d.index % n, Nat.mod_lt _ (Nat.pos_of_ne_zero h)⟩
      .ok (s, { d with index := (d.index + 1) % n })
    else
      .error "rpc discovery: not supported select mode"

/-- Iterate `Get(RoundRobinSelect)` `k` times, collecting the returned
servers in order (used to state the round-robin fairness property). -/
def MultiServerDiscovery.getRRList (d : MultiServerDiscovery) : Nat → List String
  | 0 => []
  | k + 1 =>
    match d.get RoundRobinSelect 0 with
    | .error _ => []
    | .ok (s, d') => s :: d'.getRRList k

/-! ## Reflection model (service registration, `newReplyv`)

Only the parts of `reflect` that the claims' code paths observe are kept:
a type's name, package path, kind, and element type(s).  `reflect.Type.Elem`
panics unless the kind has an element type; that partiality is modelled by
`Option`. -/

inductive GoKind where
  | intK | stringK | structK | interfaceK | funcK | mapK | sliceK | ptrK | otherK
deriving DecidableEq, Repr

/-- Model of `reflect.Type`.  `prim` covers named and builtin types of a
non-composite kind (its `kind` field is never `mapK`, `sliceK` or `ptrK`);
unnamed composite types have their own constructors, with empty name and
package path as in Go. -/
inductive GoType where
  | prim (name pkgPath : String) (kind : GoKind)
  | ptrT (elem : GoType)
  | sliceT (elem : GoType)
  | mapT (key value : GoType)
deriving DecidableEq, Repr

def GoType.name : GoType → String
  | .prim n _ _ => n
  | _ => ""

def GoType.pkgPath : GoType → String
  | .prim _ p _ => p
  | _ => ""

def GoType.kind : GoType → GoKind
  | .prim _ _ k => k
  | .ptrT _ => .ptrK
  | .sliceT _ => .sliceK
  | .mapT _ _ => .mapK

/-- `reflect.Type.Elem`, made total via `Option` (`none` models the panic
for kinds without an element type; for maps it is the value type). -/
def GoType.elem? : GoType → Option GoType
  | .ptrT e => some e
  | .sliceT e => some e
  | .mapT _ v => some v
  | .prim _ _ _ => none

/-- The builtin `int` type (empty package path). -/
def GoType.goInt : GoType := .prim "int" "" .intK

/-- The builtin `string` type. -/
def GoType.goString : GoType := .prim "string" "" .stringK

/-- `reflect.TypeOf((*error)(nil)).Elem()`: the `error` interface type. -/
def GoType.errorType : GoType := .prim "error" "" .interfaceK

/-- `ast.IsExported`: the first character of the name is an upper-case
letter (empty name is not exported).  The source's identifiers are ASCII,
so `Char.isUpper` coincides with `unicode.IsUpper` on every input used. -/
def isExported (name : String) : Bool :=
  match name.toList with
  | [] => false
  | c :: _ => c.isUpper

/-- `isExportedOrBuiltinType` (src/unnamed/part_000). -/
def isExportedOrBuiltinType (t : GoType) : Bool :=
  isExported t.name || t.pkgPath == ""

/-- One method of a receiver type, as `reflect.Method` exposes it:
`ins` are the parameter types with the receiver at position 0. -/
structure GoMethod where
  name : String
  ins : List GoType
  outs : List GoType
deriving DecidableEq, Repr

/-- The stored descriptor (`methodType` in the source, minus the reflective
handle and the call counter, which no claim observes). -/
structure MethodType where
  name : String
  argType : GoType
  replyType : GoType
deriving DecidableEq, Repr

/-- The descriptor `registerMethods` would store for `m` (fields `In(1)` and
`In(2)`); `none` when the method has fewer than three inputs. -/
def mkMethodType (m : GoMethod) : Option MethodType :=
  match m.ins.get? 1, m.ins.get? 2 with
  | some argType, some replyType => some ⟨m.name, argType, replyType⟩
  | _, _ => none

/-- The conjunction of the checks in `registerMethods`'s loop body:
exactly three inputs, exactly one output, the output is the `error`
interface, and both the argument and reply types are exported or builtin. -/
def methodEligible (m : GoMethod) : Bool :=
  m.ins.length == 3 && m.outs.length == 1 &&
  m.outs.head? == some GoType.errorType &&
  (match m.ins.get? 1, m.ins.get? 2 with
   | some argType, some replyType =>
     isExportedOrBuiltinType argType && isExportedOrBuiltinType replyType
   | _, _ => false)

/-- One iteration of `registerMethods`'s loop: run the eligibility checks
(`continue` on failure) and assign `s.method[method.Name]` on success. -/
def registerOne (acc : String → Option MethodType) (m : GoMethod) :
    String → Option MethodType :=
  if ¬ (m.ins.length = 3 ∧ m.outs.length = 1) then acc
  else if m.outs.head? ≠ some GoType.errorType then acc
  else
    match m.ins.get? 1, m.ins.get? 2 with
    | some argType, some replyType =>
      if ¬ (isExportedOrBuiltinType argType ∧ isExportedOrBuiltinType replyType) then acc
      else fun k => if k = m.name then some ⟨m.name, argType, replyType⟩ else acc k
    | _, _ => acc

/-- `service.registerMethods`: iterate over the receiver type's methods,
building the `method` map. -/
def registerMethods (methods : List GoMethod) : String → Option MethodType :=
  methods.foldl registerOne (fun _ => none)

/-! ### `newService` and `Server.Register` -/

structure Service where
  name : String
  methodMap : String → Option MethodType

/-- Model of the receiver value handed to `newService`: the name of its
dereferenced concrete type (`reflect.Indirect(s.rcvr).Type().Name()`) and
the method set of `reflect.TypeOf(rcvr)`. -/
structure Receiver where
  typeName : String
  methods : List GoMethod

inductive NewServiceResult where
  | fatal (msg : String)
  | ok (s : Service)

/-- `newService`: derive the name, `log.Fatalf` (process exit, modelled as
`fatal`) when it is not exported, then register the methods. -/
def newService (rcvr : Receiver) : NewServiceResult :=
  let name := rcvr.typeName
  if ¬ isExported name then
    .fatal ("rpc server: " ++ name ++ " is not a valid service name")
  else
    .ok { name := name, methodMap := registerMethods rcvr.methods }

inductive RegisterOutcome where
  | fatal (msg : String)
  | err (msg : String)
  | ok
deriving DecidableEq, Repr

/-- `Server.Register`: build the service, then `sync.Map.LoadOrStore` it
under the derived name — a duplicate leaves the map unchanged and returns
an error.  The server's `serviceMap` is modelled as an association list. -/
def Server.register (serviceMap : List (String × Service)) (rcvr : Receiver) :
    RegisterOutcome × List (String × Service) :=
  match newService rcvr with
  | .fatal msg => (.fatal msg, serviceMap)
  | .ok s =>
    match serviceMap.lookup s.name with
    | some _ => (.err ("rpc: service already defined: " ++ s.name), serviceMap)
    | none => (.ok, serviceMap ++ [(s.name, s)])

/-! ### `newReplyv` -/

/-- The fragment of `reflect.Value` that `newReplyv` can produce. -/
inductive RValue where
  | nilMap (t : GoType)
  | nilSlice (t : GoType)
  | zeroVal (t : GoType)
  | emptyMap (t : GoType)
  | emptySlice (t : GoType)
  | ptr (pointee : RValue)
deriving DecidableEq, Repr

/-- The Go zero value of a type: nil for map and slice kinds, a generic
zero otherwise (only the distinctions `newReplyv` observes are kept). -/
def zeroValue (t : GoType) : RValue :=
  match t.kind with
  | .mapK => .nilMap t
  | .sliceK => .nilSlice t
  | _ => .zeroVal t

/-- `methodType.newReplyv`: `reflect.New(m.ReplyType.Elem())` — a panic
(`none`) when `ReplyType` has no element type — then the switch replacing a
map/slice pointee with an empty non-nil container. -/
def newReplyv (m : MethodType) : Option RValue :=
  match m.replyType.elem? with
  | none => none
  | some t =>
    let replyv := RValue.ptr (zeroValue t)
    match t.kind with
    | .mapK => some (RValue.ptr (.emptyMap t))
    | .sliceK => some (RValue.ptr (.emptySlice t))
    | _ => some replyv

/-- The pointee that `newReplyv` leaves behind a pointer reply type `*t`. -/
def freshReply (t : GoType) : RValue :=
  match t.kind with
  | .mapK => .emptyMap t
  | .sliceK => .emptySlice t
  | _ => zeroValue t

/-! ## Server request path (`findService`, `readRequest`, `serverCodec`) -/

/-- `codec.Header`. -/
structure Header where
  ServiceMethod : String
  Seq : Nat
  Error : String
deriving DecidableEq, Repr

/-- One codec-framed item on the incoming stream: a decodable header, or a
body (whose decode into the prepared argument succeeds iff `decodeOk`). -/
inductive WireToken where
  | header (h : Header)
  | body (decodeOk : Bool)
deriving DecidableEq, Repr

/-- `strings.LastIndex(s, ".")`, with Go's `-1` rendered as `none`.
The index counts characters; the strings involved are ASCII, where this
coincides with Go's byte index. -/
def lastDotIndex (s : String) : Option Nat :=
  match s.toList.reverse.findIdx? (· = '.') with
  | none => none
  | some k => some (s.toList.length - 1 - k)

/-- `Server.findService`: split `serviceMethod` at the last dot, look up
the service, then the method. -/
def findService (serviceMap : List (String × Service)) (serviceMethod : String) :
    Except String (Service × MethodType) :=
  match lastDotIndex serviceMethod with
  | none => .error ("rpc server: service/method request ill-formed: " ++ serviceMethod)
  | some dot =>
    let chars := serviceMethod.toList
    let serviceName := (chars.take dot).asString
    let methodName := (chars.drop (dot + 1)).asString
    match serviceMap.lookup serviceName with
    | none => .error ("rpc server: can't find service " ++ serviceName)
    | some svc =>
      match svc.methodMap methodName with
      | none => .error ("rpc server: can't find method " ++ methodName)
      | some mtype => .ok (svc, mtype)

/-- What one `Server.readRequest` call did: the request's header when one
was decoded, the error (`none` = success), the stream that remains, and how
many `cc.ReadBody` calls were made. -/
structure ReadReqOutcome where
  reqHeader : Option Header
  err : Option String
  rest : List WireToken
  bodyReads : Nat
deriving DecidableEq, Repr

/-- `Server.readRequest`: read the header; resolve the service/method — on
resolution error return at once (the body is NOT read); otherwise allocate
`argv`/`replyv` and decode the body into `argv`. -/
def readRequest (serviceMap : List (String × Service)) (stream : List WireToken) :
    ReadReqOutcome :=
  match stream with
  | .header h :: rest =>
    match findService serviceMap h.ServiceMethod with
    | .error e => { reqHeader := some h, err := some e, rest := rest, bodyReads := 0 }
    | .ok _ =>
      match rest with
      | .body ok :: rest' =>
        if ok then { reqHeader := some h, err := none, rest := rest', bodyReads := 1 }
        else { reqHeader := some h, err := some "rpc server: read argv err",
               rest := rest', bodyReads := 1 }
      | _ => { reqHeader := some h, err := some "rpc server: read argv err",
               rest := rest, bodyReads := 1 }
  | _ =>
    -- `readRequestHeader` fails (EOF / not a header): `readRequest`
    -- returns `nil, err` without touching the body.
    { reqHeader := none, err := some "EOF", rest := stream, bodyReads := 0 }

/-- A response written to the connection: the header it was sent with and
its body (`placeholder` is `invalidRequest`, the empty struct). -/
inductive RespBody where
  | placeholder
  | replyVal
deriving DecidableEq, Repr

structure Response where
  h : Header
  body : RespBody
deriving DecidableEq, Repr

/-- What one iteration of the `serverCodec` loop does with the request it
read. -/
inductive LoopStep where
  | breakLoop
  | errorResponse (resp : Response)
  | dispatch (h : Header)
deriving DecidableEq, Repr

/-- One iteration of `Server.serverCodec`'s loop: read a request; a header
failure breaks the loop; a request-level error stamps `Header.Error` and
sends an `invalidRequest` response (no worker is spawned, hence no method
invocation) and continues; otherwise the request is dispatched to
`handleRequest`. -/
def serverCodecStep (serviceMap : List (String × Service)) (stream : List WireToken) :
    LoopStep × List WireToken :=
  let r := readRequest serviceMap stream
  match r.err, r.reqHeader with
  | some _, none => (.breakLoop, r.rest)
  | some e, some h => (.errorResponse ⟨{ h with Error := e }, .placeholder⟩, r.rest)
  | none, some h => (.dispatch h, r.rest)
  | none, none => (.breakLoop, r.rest)

/-! ## `handleRequest` with a handle timeout (C1)

`handleRequest` spawns a worker goroutine that runs the method, then
performs a rendezvous send on the unbuffered channel `called`, then sends
the response and a rendezvous send on `sent`.  The spawning goroutine
(`main` below) races `called` against `time.After(timeout)`.  The system is
modelled as a small-step transition relation over the two program counters
and the list of responses written to the connection; unbuffered channel
operations are rendezvous steps requiring both sides to be ready. -/

inductive WorkerPC where
  | running
  | atCalled
  | postCalled
  | atSent
  | doneW
deriving DecidableEq, Repr

inductive MainPC where
  | selecting
  | awaitingSent
  | finished
  | timedOut
deriving DecidableEq, Repr

structure HRState where
  worker : WorkerPC
  main : MainPC
  responses : List Response
deriving DecidableEq, Repr

/-- The timeout error text, `fmt.Sprintf("rpc server: request timeout:
expect within %s", timeout)`; `dStr` is `timeout.String()`. -/
def timeoutErrorText (dStr : String) : String :=
  "rpc server: request timeout: expect within " ++ dStr

/-- The response the timer branch sends: the request header stamped with
the timeout error, with the `invalidRequest` placeholder body. -/
def timeoutResponse (h0 : Header) (dStr : String) : Response :=
  ⟨{ h0 with Error := timeoutErrorText dStr }, .placeholder⟩

/-- The response the worker sends once past the `called` rendezvous:
on a method error, the header stamped with it plus the placeholder body;
otherwise the header with `req.replyv` as body. -/
def workerResponse (h0 : Header) (callErr : Option String) : Response :=
  match callErr with
  | some e => ⟨{ h0 with Error := e }, .placeholder⟩
  | none => ⟨h0, .replyVal⟩

/-- Small-step semantics of `handleRequest` for one request.  `D` is the
handle timeout in nanoseconds (the timer exists only when `D ≠ 0`), `dStr`
its Go rendering, `h0` the request header, `callErr` the error the method
invocation returns. -/
inductive HRStep (D : Nat) (dStr : String) (h0 : Header) (callErr : Option String) :
    HRState → HRState → Prop where
  | finishCall (m : MainPC) (rs : List Response) :
      HRStep D dStr h0 callErr ⟨.running, m, rs⟩ ⟨.atCalled, m, rs⟩
  | rendezvousCalled (rs : List Response) :
      HRStep D dStr h0 callErr ⟨.atCalled, .selecting, rs⟩ ⟨.postCalled, .awaitingSent, rs⟩
  | timerFires (w : WorkerPC) (rs : List Response) (hD : D ≠ 0) :
      HRStep D dStr h0 callErr ⟨w, .selecting, rs⟩
        ⟨w, .timedOut, rs ++ [timeoutResponse h0 dStr]⟩
  | workerSend (m : MainPC) (rs : List Response) :
      HRStep D dStr h0 callErr ⟨.postCalled, m, rs⟩
        ⟨.atSent, m, rs ++ [workerResponse h0 callErr]⟩
  | rendezvousSent (rs : List Response) :
      HRStep D dStr h0 callErr ⟨.atSent, .awaitingSent, rs⟩ ⟨.doneW, .finished, rs⟩

/-- The state in which `handleRequest` begins: the worker is running the
method, the spawning goroutine is at the `select`, nothing written yet. -/
def hrInit : HRState := ⟨.running, .selecting, []⟩

/-- Reachability for the `handleRequest` system. -/
def hrReachable (D : Nat) (dStr : String) (h0 : Header) (callErr : Option String)
    (s : HRState) : Prop :=
  Relation.ReflTransGen (HRStep D dStr h0 callErr) hrInit s

/-! ## Client session (`registerCall`, `terminateCalls`, `parseOption`) -/

/-- `ErrShutdown = errors.New("connection is shut down")`. -/
def errShutdownText : String := "connection is shut down"

/-- A client-side `Call` record, keeping the fields the claims observe:
its error and the number of `call.done()` completion signals delivered. -/
structure CallRec where
  error : Option String
  doneCount : Nat
deriving DecidableEq, Repr

/-- The client session state guarded by `client.mu`: the next sequence
number, the pending map (as an association list keyed by `Seq`), and the
`closing`/`shutdown` flags. -/
structure ClientState where
  seq : Nat
  pending : List (Nat × CallRec)
  closing : Bool
  shutdown : Bool
deriving DecidableEq, Repr

/-- The two client mutexes, in acquisition order. -/
inductive LockEvent where
  | lockSending
  | lockMu
deriving DecidableEq, Repr

/-- `Client.registerCall`: reject when `closing` or `shutdown`, otherwise
assign the current `seq` to the call, store it in `pending`, and increment
`seq`.  Returns the assigned sequence number or `ErrShutdown`. -/
def registerCall (st : ClientState) (call : CallRec) : Except String Nat × ClientState :=
  if st.closing || st.shutdown then (.error errShutdownText, st)
  else (.ok st.seq, { st with pending := st.pending ++ [(st.seq, call)], seq := st.seq + 1 })

/-- `Client.terminateCalls(err)`: lock `sending` then `mu`, set
`shutdown`, then stamp every pending call's `Error` with `err` and call its
`done()` once.  The pending map itself is not modified (no entry is
removed).  The second component is the lock-acquisition trace. -/
def terminateCalls (st : ClientState) (err : String) : ClientState × List LockEvent :=
  ({ st with
      shutdown := true,
      pending := st.pending.map fun sc =>
        (sc.1, { sc.2 with error := some err, doneCount := sc.2.doneCount + 1 }) },
   [.lockSending, .lockMu])

/-- `Option` as the client configures it (`codec.Type` is a string). -/
structure GoOption where
  MagicNumber : Nat
  CodecType : String
deriving DecidableEq, Repr

/-- `MagicNumber = 0x3bef5c`. -/
def magicNumber : Nat := 0x3bef5c

/-- `codec.GobType` (the string constant as written in the source). -/
def gobType : String := "applocation/gob"

/-- `DefaultOption`. -/
def defaultOption : GoOption := { MagicNumber := magicNumber, CodecType := gobType }

/-- `parseOption(opts ...*Option)`: Go's variadic pointer list is a list of
`Option GoOption` (`none` = nil pointer).  Mirrors the source's
short-circuit `len(opts) == 0 || opts[0] == nil` check, then the
`len(opts) != 1` check, then the field normalisation. -/
def parseOption (opts : List (Option GoOption)) : Except String GoOption :=
  match opts with
  | [] => .ok defaultOption
  | none :: _ => .ok defaultOption
  | some o :: rest =>
    if rest.length ≠ 0 then .error "number of options is more than 1"
    else
      let o := { o with MagicNumber := defaultOption.MagicNumber }
      let o := if o.CodecType = "" then { o with CodecType := defaultOption.CodecType } else o
      .ok o

/-- The option a `Dial`-constructed client writes in its handshake:
`Dial` forwards `parseOption`'s result (or fails), and `NewClient` JSON-
encodes exactly that option onto the connection. -/
def dialHandshakeOption (opts : List (Option GoOption)) : Except String GoOption :=
  parseOption opts

/-! ## `XClient.Broadcast` (C6)

Each launched task calls one address with its own cloned reply slot and
then enters the mutex-protected section that merges its outcome into the
shared state.  The merge order is the mutex-acquisition order, an arbitrary
interleaving; `broadcast` folds the merge over that order.  An outcome is
the task's `xc.call` result: `.ok v` with `v` the clone's final contents,
or `.error msg`. -/

structure BroadcastState (V : Type) where
  e : Option String
  replyDone : Bool
  callerReply : Option V
  cancelCount : Nat
  copyCount : Nat
deriving DecidableEq, Repr

/-- State before any task's merge section runs: `replyDone := reply == nil`
(`callerSlot = none` models a nil caller reply). -/
def broadcastInit {V : Type} (callerSlot : Option V) : BroadcastState V :=
  { e := none, replyDone := callerSlot.isNone, callerReply := callerSlot,
    cancelCount := 0, copyCount := 0 }

/-- The mutex-protected section of one `Broadcast` task: record the first
error and `cancel()`; copy a successful clone into the caller's slot unless
one was already copied. -/
def broadcastStep {V : Type} (st : BroadcastState V) (outcome : Except String V) :
    BroadcastState V :=
  let st1 :=
    match outcome with
    | .error msg =>
      if st.e = none then { st with e := some msg, cancelCount := st.cancelCount + 1 }
      else st
    | .ok _ => st
  match outcome with
  | .ok v =>
    if ¬ st1.replyDone then
      { st1 with callerReply := some v, replyDone := true, copyCount := st1.copyCount + 1 }
    else st1
  | .error _ => st1

/-- `XClient.Broadcast` after `wg.Wait()`: the merge sections of all tasks,
folded in mutex order; `Broadcast` returns the final `e`. -/
def broadcast {V : Type} (outcomes : List (Except String V)) (callerSlot : Option V) :
    BroadcastState V :=
  outcomes.foldl broadcastStep (broadcastInit callerSlot)

/-- The error of the first failing outcome in merge order. -/
def firstError {V : Type} (outcomes : List (Except String V)) : Option String :=
  (outcomes.filterMap fun o => match o with | .error m => some m | .ok _ => none).head?

/-- The value of the first successful outcome in merge order. -/
def firstOk {V : Type} (outcomes : List (Except String V)) : Option V :=
  (outcomes.filterMap fun o => match o with | .ok v => some v | .error _ => none).head?

/-- The server the round-robin branch picks for cursor value `i`. -/
def rrSelect (servers : List String) (i : Nat) : String :=
  servers.getD (i % servers.length) ""

/-- The `Foo.Sum` method of the repository's test service, as reflection
reports it: receiver `Foo`, argument `Args`, reply `*int`, result
`error`. -/
def fooSumMethod : GoMethod :=
  { name := "Sum",
    ins := [.prim "Foo" "main" .intK, .prim "Args" "main" .structK, .ptrT GoType.goInt],
    outs := [GoType.errorType] }

/-- A method whose reply parameter type is plain `int`: every check in
`registerMethods` passes (builtin types have empty package path), yet its
reply type is not a pointer. -/
def badReplyMethod : GoMethod :=
  { name := "Bad",
    ins := [.ptrT (.prim "Foo" "main" .structK), GoType.goInt, GoType.goInt],
    outs := [GoType.errorType] }

/-- Invariant of the `handleRequest` system: the possible joint
configurations of the two goroutines and the responses sent so far. -/
def hrInv (dStr : String) (h0 : Header) (callErr : Option String) (s : HRState) : Prop :=
  (s.main = .selecting ∧ (s.worker = .running ∨ s.worker = .atCalled) ∧ s.responses = [])
  ∨ (s.main = .awaitingSent ∧ s.worker = .postCalled ∧ s.responses = [])
  ∨ (s.main = .awaitingSent ∧ s.worker = .atSent ∧
      s.responses = [workerResponse h0 callErr])
  ∨ (s.main = .finished ∧ s.worker = .doneW ∧
      s.responses = [workerResponse h0 callErr])
  ∨ (s.main = .timedOut ∧ (s.worker = .running ∨ s.worker = .atCalled) ∧
      s.responses = [timeoutResponse h0 dStr])

/-- Invariant maintained across the merge sections of `Broadcast` tasks. -/
def broadcastMergeInv {V : Type} (callerSlot : Option V)
    (processed : List (Except String V)) (st : BroadcastState V) : Prop :=
  st.e = firstError processed ∧
  st.cancelCount = (if firstError processed = none then 0 else 1) ∧
  (callerSlot = none → st.replyDone = true ∧ st.callerReply = none ∧ st.copyCount = 0) ∧
  (∀ v0, callerSlot = some v0 →
    (firstOk processed = none →
      st.replyDone = false ∧ st.callerReply = some v0 ∧ st.copyCount = 0) ∧
    (∀ v, firstOk processed = some v →
      st.replyDone = true ∧ st.callerReply = some v ∧ st.copyCount = 1))

/-! # Theorems -/

/-! ## C3 — `GobCodec.Write` flush/close behaviour -/

/-- Claim C3 counterexample: when the header encodes but the body encode
fails, `Write` panics (via `log.Panicln`) after flushing, with the stream
NOT closed and no non-nil error returned — contradicting the claim that on
any encode failure `Write` closes the underlying stream and returns a
non-nil error. -/
theorem C3_counterexample :
    (gobCodecWrite none (some "boom")).closed = false ∧
    (gobCodecWrite none (some "boom")).result = .panicked "boom" := by
  exact ⟨rfl, rfl⟩

/-- Claim C3 (amended): every `Write` flushes the buffered writer before
finishing; a header-encode error closes the underlying stream and returns
that error; a body-encode error panics after the flush, without closing the
stream and without returning an error. -/
theorem C3_gobWrite_flush_close (headerEncErr bodyEncErr : Option String) :
    (gobCodecWrite headerEncErr bodyEncErr).flushed = true ∧
    (∀ e, headerEncErr = some e →
      gobCodecWrite headerEncErr bodyEncErr = ⟨true, true, .errReturned e⟩) ∧
    (∀ e, headerEncErr = none → bodyEncErr = some e →
      gobCodecWrite headerEncErr bodyEncErr = ⟨true, false, .panicked e⟩) ∧
    (headerEncErr = none → bodyEncErr = none →
      gobCodecWrite headerEncErr bodyEncErr = ⟨true, false, .ok⟩) := by
  cases headerEncErr <;> cases bodyEncErr <;>
    simp [gobCodecWrite]

/-- Witness for `C3_gobWrite_flush_close` at a concrete header-encode
failure. -/
theorem C3_gobWrite_flush_close_witness :
    gobCodecWrite (some "hdr") none = ⟨true, true, .errReturned "hdr"⟩ :=
  (C3_gobWrite_flush_close (some "hdr") none).2.1 "hdr" rfl

/-! ## C10 — `parseOption` / `Dial` option handling -/

/-- Claim C10 counterexample: a two-element option list whose first entry
is nil is accepted (yielding the default option) instead of being rejected,
contradicting the claim that every list of length greater than one yields
an error. -/
theorem C10_counterexample :
    parseOption [none, some defaultOption] = .ok defaultOption ∧
    ([none, some defaultOption] : List (Option GoOption)).length > 1 :=
  ⟨rfl, by decide⟩

/-- Claim C10 (amended): an empty list, or any list whose first entry is
nil, yields the default option; otherwise a list of length greater than one
yields an error; otherwise the single supplied option is used with its
MagicNumber unconditionally overwritten by the fixed magic value and an
empty CodecType replaced by the gob codec type — so every option a
`Dial`-constructed client sends in its handshake carries the fixed magic
number. -/
theorem C10_parseOption_magic :
    parseOption [] = .ok defaultOption ∧
    (∀ rest, parseOption (none :: rest) = .ok defaultOption) ∧
    (∀ o rest, rest ≠ [] →
      parseOption (some o :: rest) = .error "number of options is more than 1") ∧
    (∀ o, parseOption [some o] =
      .ok { MagicNumber := magicNumber,
            CodecType := if o.CodecType = "" then gobType else o.CodecType }) ∧
    (∀ opts o, dialHandshakeOption opts = .ok o → o.MagicNumber = magicNumber) := by
  refine ⟨rfl, fun rest => rfl, fun o rest hrest => ?_, fun o => ?_, fun opts o h => ?_⟩
  · simp [parseOption, List.length_eq_zero, hrest]
  · simp [parseOption, defaultOption]
    split <;> rfl
  · match opts, h with
    | [], h => cases h; rfl
    | none :: rest, h => cases h; rfl
    | some o' :: rest, h =>
      rw [dialHandshakeOption, parseOption] at h
      split at h
      · cases h
      · dsimp only at h
        split at h <;> cases h <;> rfl

/-- Witness for `C10_parseOption_magic` at concrete inputs: a two-element
list with a non-nil head errors, and a successfully parsed custom option
carries the fixed magic number. -/
theorem C10_parseOption_magic_witness :
    parseOption [some defaultOption, none] = .error "number of options is more than 1" ∧
    ∀ o, dialHandshakeOption [some { MagicNumber := 7, CodecType := "" }] = .ok o →
      o.MagicNumber = magicNumber :=
  ⟨C10_parseOption_magic.2.2.1 defaultOption [none] (by decide),
   fun o h => C10_parseOption_magic.2.2.2.2 _ o h⟩

/-! ## C4 — `terminateCalls` / `registerCall` -/

/-- Claim C4 counterexample: `terminateCalls` does not empty the pending
map — after terminating a session with one pending call, the pending map
still holds an entry, contradicting "leaves the pending map empty". -/
theorem C4_counterexample :
    (terminateCalls ⟨2, [(1, ⟨none, 0⟩)], false, false⟩ "broken").1.pending =
      [(1, ⟨some "broken", 1⟩)] := rfl

/-- Claim C4 (amended): `terminateCalls(err)` acquires the sending mutex
before the state mutex, sets `shutdown`, stamps every pending call's error
with `err` and signals each exactly once (its `done` count rises by exactly
one), and leaves the pending map's entries in place (same keys, nothing
removed); afterwards, while `closing` or `shutdown` is set, `registerCall`
rejects every new call with the shutdown sentinel error and leaves the
state unchanged. -/
theorem C4_terminateCalls_registerCall (st : ClientState) (err : String) :
    (terminateCalls st err).2 = [.lockSending, .lockMu] ∧
    (terminateCalls st err).1.shutdown = true ∧
    (terminateCalls st err).1.pending.map Prod.fst = st.pending.map Prod.fst ∧
    (∀ (i : Nat) (p' : Nat × CallRec), (terminateCalls st err).1.pending[i]? = some p' →
      ∃ p, st.pending[i]? = some p ∧
        p' = (p.1, { error := some err, doneCount := p.2.doneCount + 1 })) ∧
    (∀ st', st'.closing = true ∨ st'.shutdown = true → ∀ call,
      registerCall st' call = (.error errShutdownText, st')) ∧
    (∀ call, registerCall (terminateCalls st err).1 call =
      (.error errShutdownText, (terminateCalls st err).1)) := by
  refine ⟨rfl, rfl, ?_, ?_, ?_, ?_⟩
  · simp [terminateCalls]
  · intro i p' hp
    simp only [terminateCalls, List.getElem?_map] at hp
    cases hmem : st.pending[i]? with
    | none => rw [hmem] at hp; cases hp
    | some p =>
      rw [hmem] at hp
      exact ⟨p, rfl, by cases hp; rfl⟩
  · intro st' hflag call
    rcases hflag with h | h <;> simp [registerCall, h]
  · intro call
    simp [registerCall, terminateCalls]

/-- Witness for `C4_terminateCalls_registerCall` at a concrete session
state with two pending calls. -/
theorem C4_terminateCalls_registerCall_witness :
    (terminateCalls ⟨5, [(2, ⟨none, 0⟩), (4, ⟨none, 1⟩)], false, false⟩ "gone").2 =
      [.lockSending, .lockMu] ∧
    ∀ call, registerCall
      (terminateCalls ⟨5, [(2, ⟨none, 0⟩), (4, ⟨none, 1⟩)], false, false⟩ "gone").1 call =
      (.error errShutdownText,
       (terminateCalls ⟨5, [(2, ⟨none, 0⟩), (4, ⟨none, 1⟩)], false, false⟩ "gone").1) :=
  ⟨(C4_terminateCalls_registerCall ⟨5, [(2, ⟨none, 0⟩), (4, ⟨none, 1⟩)], false, false⟩ "gone").1,
   (C4_terminateCalls_registerCall ⟨5, [(2, ⟨none, 0⟩), (4, ⟨none, 1⟩)], false, false⟩ "gone").2.2.2.2.2⟩

/-! ## C9 — `Server.Register` / `newService` -/

/-- Helper: a key absent from the front list is looked up in the back
list. -/
lemma lookup_append_of_none {β : Type} (l1 l2 : List (String × β)) (k : String)
    (h : l1.lookup k = none) : (l1 ++ l2).lookup k = l2.lookup k := by
  induction l1 with
  | nil => rfl
  | cons p rest ih =>
    obtain ⟨a, b⟩ := p
    rw [List.cons_append, List.lookup] at *
    cases hk : (k == a) with
    | true => rw [hk] at h; cases h
    | false => rw [hk] at h; exact ih h

/-- Claim C9: `Register` derives the service name from the receiver's
concrete type name; an unexported name fails (fatally, via `log.Fatalf`,
with nothing stored); a name already present fails with the
already-defined error and leaves the map unchanged; otherwise the service
record is stored under the derived name and no error is returned. -/
theorem C9_register (serviceMap : List (String × Service)) (rcvr : Receiver) :
    (isExported rcvr.typeName = false →
      Server.register serviceMap rcvr =
        (.fatal ("rpc server: " ++ rcvr.typeName ++ " is not a valid service name"),
         serviceMap)) ∧
    (isExported rcvr.typeName = true → ∀ s, serviceMap.lookup rcvr.typeName = some s →
      Server.register serviceMap rcvr =
        (.err ("rpc: service already defined: " ++ rcvr.typeName), serviceMap)) ∧
    (isExported rcvr.typeName = true → serviceMap.lookup rcvr.typeName = none →
      (Server.register serviceMap rcvr).1 = .ok ∧
      (Server.register serviceMap rcvr).2.lookup rcvr.typeName =
        some { name := rcvr.typeName, methodMap := registerMethods rcvr.methods }) := by
  refine ⟨fun hne => ?_, fun hex s hdup => ?_, fun hex hnew => ?_⟩
  · simp [Server.register, newService, hne]
  · simp [Server.register, newService, hex, hdup]
  · have hreg : Server.register serviceMap rcvr =
        (.ok, serviceMap ++
          [(rcvr.typeName,
            { name := rcvr.typeName, methodMap := registerMethods rcvr.methods })]) := by
      simp [Server.register, newService, hex, hnew]
    refine ⟨by rw [hreg], ?_⟩
    rw [hreg, lookup_append_of_none _ _ _ hnew, List.lookup, beq_self_eq_true]

/-- Witness for `C9_register`: the `Foo` receiver registers into an empty
map, and a lower-case receiver type name is fatal. -/
theorem C9_register_witness :
    (Server.register [] ⟨"Foo", []⟩).1 = .ok ∧
    Server.register [] ⟨"foo", []⟩ =
      (.fatal "rpc server: foo is not a valid service name", []) :=
  ⟨((C9_register [] ⟨"Foo", []⟩).2.2 (by decide) rfl).1,
   (C9_register [] ⟨"foo", []⟩).1 (by decide)⟩

/-! ## C8 — `newReplyv` -/

/-- Claim C8 counterexample: registration performs no pointer-kind check on
the reply type, so `badReplyMethod` (reply type `int`) is registered; on
its descriptor `newReplyv` panics — `reflect.New(m.ReplyType.Elem())` with
a non-pointer, non-container `ReplyType` — rather than returning a non-nil
pointer to a zero value of a pointee type. -/
theorem C8_counterexample :
    (registerMethods [badReplyMethod]) "Bad" =
      some ⟨"Bad", GoType.goInt, GoType.goInt⟩ ∧
    newReplyv ⟨"Bad", GoType.goInt, GoType.goInt⟩ = none := by
  exact ⟨by decide, rfl⟩

/-- Claim C8 (amended): for every method descriptor whose reply type is a
pointer type `*t` — which covers every registered method of the intended
`(Args, *Reply) error` shape — `newReplyv` returns a non-nil pointer to a
freshly allocated value of the pointee type `t`: an empty non-nil map when
`t`'s kind is map, an empty non-nil slice when it is slice, and the plain
zero value otherwise. -/
theorem C8_newReplyv_pointer_reply (m : MethodType) (t : GoType)
    (h : m.replyType = .ptrT t) :
    newReplyv m = some (.ptr (freshReply t)) ∧
    (t.kind = .mapK → freshReply t = .emptyMap t) ∧
    (t.kind = .sliceK → freshReply t = .emptySlice t) ∧
    (t.kind ≠ .mapK → t.kind ≠ .sliceK → freshReply t = .zeroVal t) := by
  refine ⟨?_, fun hk => ?_, fun hk => ?_, fun hk1 hk2 => ?_⟩
  · rw [newReplyv, h]
    show (match t.kind with
      | .mapK => some (RValue.ptr (.emptyMap t))
      | .sliceK => some (RValue.ptr (.emptySlice t))
      | _ => some (RValue.ptr (zeroValue t))) = some (.ptr (freshReply t))
    cases htk : t.kind <;> simp [freshReply, htk]
  · rw [freshReply, hk]
  · rw [freshReply, hk]
  · rw [freshReply]
    cases htk : t.kind <;> simp_all [zeroValue, htk]

/-- Witness for `C8_newReplyv_pointer_reply` at reply type
`*map[string]int`: the pointee is the empty non-nil map. -/
theorem C8_newReplyv_pointer_reply_witness :
    newReplyv ⟨"M", .prim "Args" "main" .structK,
        .ptrT (.mapT GoType.goString GoType.goInt)⟩ =
      some (.ptr (freshReply (.mapT GoType.goString GoType.goInt))) ∧
    freshReply (.mapT GoType.goString GoType.goInt) =
      .emptyMap (.mapT GoType.goString GoType.goInt) :=
  ⟨(C8_newReplyv_pointer_reply _ _ rfl).1,
   (C8_newReplyv_pointer_reply
      ⟨"M", .prim "Args" "main" .structK, .ptrT (.mapT GoType.goString GoType.goInt)⟩
      _ rfl).2.1 rfl⟩

/-! ## C2 — resolution errors in the request loop -/

/-- Claim C2 counterexample: on a request whose `ServiceMethod` has no dot,
`readRequest` returns at once after the failed resolution — `bodyReads = 0`
and the body token is still on the stream — so the request body is NOT
drained, contradicting the claim. -/
theorem C2_counterexample :
    (readRequest [] [.header ⟨"NoDot", 1, ""⟩, .body true]).bodyReads = 0 ∧
    (readRequest [] [.header ⟨"NoDot", 1, ""⟩, .body true]).rest = [.body true] ∧
    (readRequest [] [.header ⟨"NoDot", 1, ""⟩, .body true]).err =
      some "rpc server: service/method request ill-formed: NoDot" := by
  refine ⟨rfl, rfl, by decide⟩

/-- Claim C2 (amended): for every request whose header is read successfully
but whose `ServiceMethod` fails to resolve, the server leaves the request
body unread on the stream, stamps the resolution error text into
`Header.Error`, sends an error response carrying the placeholder body
without dispatching the request to any method invocation, and continues the
loop to read the next request on the same connection. -/
theorem C2_resolution_error (serviceMap : List (String × Service)) (h : Header)
    (rest : List WireToken) (e : String)
    (hres : findService serviceMap h.ServiceMethod = .error e) :
    readRequest serviceMap (.header h :: rest) =
      { reqHeader := some h, err := some e, rest := rest, bodyReads := 0 } ∧
    serverCodecStep serviceMap (.header h :: rest) =
      (.errorResponse ⟨{ h with Error := e }, .placeholder⟩, rest) := by
  have h1 : readRequest serviceMap (.header h :: rest) =
      { reqHeader := some h, err := some e, rest := rest, bodyReads := 0 } := by
    simp only [readRequest, hres]
  exact ⟨h1, by rw [serverCodecStep, h1]⟩

/-- Witness for `C2_resolution_error` at the dotless method name
`"NoDot"` on an empty service map. -/
theorem C2_resolution_error_witness :
    serverCodecStep [] [.header ⟨"NoDot", 1, ""⟩, .body true] =
      (.errorResponse
        ⟨⟨"NoDot", 1, "rpc server: service/method request ill-formed: NoDot"⟩,
         .placeholder⟩,
       [.body true]) :=
  (C2_resolution_error [] ⟨"NoDot", 1, ""⟩ [.body true]
    "rpc server: service/method request ill-formed: NoDot" rfl).2

/-! ## C5 — `registerMethods` eligibility -/

lemma methodEligible_iff (m : GoMethod) :
    methodEligible m = true ↔
      m.ins.length = 3 ∧ m.outs.length = 1 ∧
      m.outs.head? = some GoType.errorType ∧
      (match m.ins.get? 1, m.ins.get? 2 with
       | some a, some r => isExportedOrBuiltinType a ∧ isExportedOrBuiltinType r
       | _, _ => False) := by
  rw [methodEligible]
  rcases h1 : m.ins.get? 1 with _ | a <;> rcases h2 : m.ins.get? 2 with _ | r <;>
    simp [Bool.and_eq_true, beq_iff_eq, and_assoc]

lemma registerOne_eq (acc : String → Option MethodType) (m : GoMethod) :
    registerOne acc m =
      if methodEligible m then
        fun k => if k = m.name then mkMethodType m else acc k
      else acc := by
  by_cases hlen : m.ins.length = 3 ∧ m.outs.length = 1
  · have hl1 : (1 : Nat) < m.ins.length := by omega
    have hl2 : (2 : Nat) < m.ins.length := by omega
    obtain ⟨a, h1⟩ : ∃ a, m.ins.get? 1 = some a := ⟨_, List.get?_eq_get hl1⟩
    obtain ⟨r, h2⟩ : ∃ r, m.ins.get? 2 = some r := ⟨_, List.get?_eq_get hl2⟩
    by_cases hout : m.outs.head? = some GoType.errorType
    · by_cases hexp : isExportedOrBuiltinType a = true ∧ isExportedOrBuiltinType r = true
      · have helig : methodEligible m = true := by
          rw [methodEligible_iff, h1, h2]
          exact ⟨hlen.1, hlen.2, hout, hexp⟩
        rw [registerOne, if_neg (not_not_intro hlen), if_neg (not_not_intro hout), h1, h2]
        dsimp only
        rw [if_neg (not_not_intro hexp), helig, if_pos rfl]
        funext k
        rw [mkMethodType, h1, h2]
      · have helig : methodEligible m = false := by
          rw [← Bool.not_eq_true, methodEligible_iff, h1, h2]
          intro hc
          exact hexp hc.2.2.2
        rw [registerOne, if_neg (not_not_intro hlen), if_neg (not_not_intro hout), h1, h2]
        dsimp only
        rw [if_pos hexp, helig]
        simp
    · have helig : methodEligible m = false := by
        rw [← Bool.not_eq_true, methodEligible_iff]
        intro hc
        exact hout hc.2.2.1
      rw [registerOne, if_neg (not_not_intro hlen), if_pos hout, helig]
      simp
  · have helig : methodEligible m = false := by
      rw [← Bool.not_eq_true, methodEligible_iff]
      intro hc
      exact hlen ⟨hc.1, hc.2.1⟩
    rw [registerOne, if_pos hlen, helig]
    simp

lemma foldl_registerOne_absent (ms : List GoMethod) (k : String) :
    ∀ acc : String → Option MethodType, (∀ m ∈ ms, m.name ≠ k) →
      (ms.foldl registerOne acc) k = acc k := by
  induction ms with
  | nil => intro acc _; rfl
  | cons m rest ih =>
    intro acc habs
    rw [List.foldl_cons]
    rw [ih _ (fun m' hm' => habs m' (List.mem_cons_of_mem _ hm'))]
    rw [registerOne_eq]
    split
    · dsimp only
      rw [if_neg (fun hk => habs m (List.mem_cons_self m rest) hk.symm)]
    · rfl

lemma registerMethods_aux (ms : List GoMethod) :
    ∀ acc : String → Option MethodType, (ms.map GoMethod.name).Nodup →
      ∀ m ∈ ms, acc m.name = none →
        (ms.foldl registerOne acc) m.name =
          if methodEligible m then mkMethodType m else none := by
  induction ms with
  | nil => intro _ _ m hm; cases hm
  | cons m0 rest ih =>
    intro acc hnd m hm hacc
    have hnd' : (rest.map GoMethod.name).Nodup := (List.nodup_cons.mp hnd).2
    have h0 : m0.name ∉ rest.map GoMethod.name := (List.nodup_cons.mp hnd).1
    rw [List.foldl_cons]
    rcases List.mem_cons.mp hm with hEq | hmem
    · subst hEq
      have habs : ∀ m' ∈ rest, m'.name ≠ m.name := by
        intro m' hm' hco
        exact h0 (hco ▸ List.mem_map_of_mem GoMethod.name hm')
      rw [foldl_registerOne_absent rest m.name _ habs, registerOne_eq]
      split
      · dsimp only
        rw [if_pos rfl]
      · exact hacc
    · have hne : m.name ≠ m0.name := by
        intro hco
        exact h0 (hco ▸ List.mem_map_of_mem GoMethod.name hmem)
      refine ih _ hnd' m hmem ?_
      rw [registerOne_eq]
      split
      · dsimp only
        rw [if_neg hne]
        exact hacc
      · exact hacc

/-! ## C7 — round-robin discovery -/

lemma rr_get_step (servers : List String) (i rnd : Nat) (hne : servers.length ≠ 0) :
    MultiServerDiscovery.get ⟨servers, i⟩ RoundRobinSelect rnd =
      .ok (rrSelect servers i, ⟨servers, (i + 1) % servers.length⟩) := by
  have hlt : i % servers.length < servers.length := Nat.mod_lt _ (Nat.pos_of_ne_zero hne)
  rw [MultiServerDiscovery.get]
  rw [dif_neg hne]
  rw [if_neg (by decide : ¬ RoundRobinSelect = RandomSelect), if_pos rfl]
  rw [rrSelect, List.getD_eq_get?, List.get?_eq_get hlt]
  rfl

lemma getRRList_eq (servers : List String) (hne : servers.length ≠ 0) :
    ∀ (N i : Nat),
      MultiServerDiscovery.getRRList ⟨servers, i⟩ N =
        (List.range N).map (fun k => rrSelect servers (i + k)) := by
  intro N
  induction N with
  | zero => intro i; rfl
  | succ N ih =>
    intro i
    rw [MultiServerDiscovery.getRRList, rr_get_step servers i 0 hne]
    dsimp only
    rw [List.range_succ_eq_map, List.map_cons, List.map_map, Nat.add_zero]
    rw [ih ((i + 1) % servers.length)]
    have hfun : (fun k => rrSelect servers ((i + 1) % servers.length + k)) =
        ((fun k => rrSelect servers (i + k)) ∘ Nat.succ) := by
      funext k
      simp only [Function.comp_apply, Nat.succ_eq_add_one]
      rw [rrSelect, rrSelect, Nat.mod_add_mod]
      congr 2
      omega
    rw [hfun]
    rfl

lemma countP_range_residue_one (n i j : Nat) (hn : n ≠ 0) (hj : j < n) :
    (List.range n).countP (fun t => decide ((i + t) % n = j)) = 1 := by
  have hpos : 0 < n := Nat.pos_of_ne_zero hn
  have hr : i % n < n := Nat.mod_lt _ hpos
  set t0 := if i % n ≤ j then j - i % n else j + n - i % n with ht0
  have ht0lt : t0 < n := by rw [ht0]; split <;> omega
  have ht0p : (i + t0) % n = j := by
    rw [← Nat.mod_add_mod]
    have : i % n + t0 = j ∨ i % n + t0 = j + n := by rw [ht0]; split <;> omega
    rcases this with h | h
    · rw [h, Nat.mod_eq_of_lt hj]
    · rw [h, Nat.add_mod_right, Nat.mod_eq_of_lt hj]
  have huniq : ∀ x, x < n → (i + x) % n = j → x = t0 := by
    intro x hx hxp
    have hmod : x % n = t0 % n :=
      Nat.ModEq.add_left_cancel' i (by rw [Nat.ModEq, hxp, ht0p])
    rw [Nat.mod_eq_of_lt hx, Nat.mod_eq_of_lt ht0lt] at hmod
    exact hmod
  have hfilter : (Finset.range n).filter (fun t => (i + t) % n = j) = {t0} := by
    rw [Finset.eq_singleton_iff_unique_mem]
    constructor
    · rw [Finset.mem_filter, Finset.mem_range]
      exact ⟨ht0lt, ht0p⟩
    · intro x hx
      rw [Finset.mem_filter, Finset.mem_range] at hx
      exact huniq x hx.1 hx.2
  have hbridge : (List.range n).countP (fun t => decide ((i + t) % n = j)) =
      ((Finset.range n).filter (fun t => (i + t) % n = j)).card := by
    rw [← Multiset.coe_countP, Multiset.countP_eq_card_filter]
    rfl
  rw [hbridge, hfilter, Finset.card_singleton]

lemma countP_mod_range (n i j : Nat) (hn : n ≠ 0) (hj : j < n) :
    ∀ m : Nat, (List.range (m * n)).countP (fun t => decide ((i + t) % n = j)) = m := by
  intro m
  induction m with
  | zero => rw [Nat.zero_mul]; rfl
  | succ m ih =>
    rw [Nat.succ_mul, List.range_add, List.countP_append, ih, List.countP_map]
    have : ((fun t => decide ((i + t) % n = j)) ∘ fun x => m * n + x) =
        fun t => decide ((i + t) % n = j) := by
      funext t
      rw [Function.comp_apply]
      congr 1
      rw [show i + (m * n + t) = (i + t) + m * n by omega, Nat.add_mul_mod_self_right]
    rw [this, countP_range_residue_one n i j hn hj]

lemma count_rr_list (servers : List String) (hnd : servers.Nodup) (i m j : Nat)
    (hj : j < servers.length) :
    (MultiServerDiscovery.getRRList ⟨servers, i⟩ (m * servers.length)).count
      (servers.getD j "") = m := by
  have hne : servers.length ≠ 0 := by omega
  rw [getRRList_eq servers hne, List.count_eq_countP, List.countP_map]
  have hpt : ((fun x => x == servers.getD j "") ∘ fun k => rrSelect servers (i + k)) =
      fun k => decide ((i + k) % servers.length = j) := by
    funext k
    rw [Function.comp_apply, Bool.eq_iff_iff]
    have hklt : (i + k) % servers.length < servers.length :=
      Nat.mod_lt _ (Nat.pos_of_ne_zero hne)
    rw [beq_iff_eq, decide_eq_true_iff]
    rw [rrSelect, List.getD_eq_get?, List.get?_eq_get hklt,
        List.getD_eq_get?, List.get?_eq_get hj]
    simp only [Option.getD_some]
    rw [hnd.get_inj_iff]
    constructor
    · intro h; exact congrArg Fin.val h
    · intro h; exact Fin.ext h
  rw [hpt, countP_mod_range servers.length i j hne hj m]

/-- Claim C5: a method of the receiver's reflected method set is stored in
the service's method map iff it has exactly three inputs (receiver,
argument, reply), exactly one output whose type is the `error` interface,
and both the argument and reply types are exported or builtin (empty
package path); every method failing any check is skipped.  Go reflection
exposes only exported methods with pairwise-distinct names, hence the
shape of `ms` and the `Nodup` hypothesis. -/
theorem C5_registerMethods (ms : List GoMethod)
    (hnd : (ms.map GoMethod.name).Nodup) :
    (∀ m ∈ ms, (registerMethods ms) m.name =
        if methodEligible m then mkMethodType m else none) ∧
    (∀ m ∈ ms, methodEligible m = true →
        ∃ mt, (registerMethods ms) m.name = some mt) ∧
    (∀ name, (∀ m ∈ ms, m.name ≠ name) → (registerMethods ms) name = none) := by
  refine ⟨fun m hm => registerMethods_aux ms _ hnd m hm rfl,
    fun m hm he => ?_,
    fun name habs => foldl_registerOne_absent ms name _ habs⟩
  rw [show (registerMethods ms) m.name =
      if methodEligible m then mkMethodType m else none from
      registerMethods_aux ms _ hnd m hm rfl, if_pos he]
  rw [methodEligible_iff] at he
  obtain ⟨h3, -, -, -⟩ := he
  have hl1 : (1 : Nat) < m.ins.length := by omega
  have hl2 : (2 : Nat) < m.ins.length := by omega
  obtain ⟨a, h1⟩ : ∃ a, m.ins.get? 1 = some a := ⟨_, List.get?_eq_get hl1⟩
  obtain ⟨r, h2⟩ : ∃ r, m.ins.get? 2 = some r := ⟨_, List.get?_eq_get hl2⟩
  exact ⟨_, by rw [mkMethodType, h1, h2]⟩

/-- Witness for `C5_registerMethods` on the `Foo` service: `Sum` passes
every check and is stored under its name. -/
theorem C5_registerMethods_witness :
    (registerMethods [fooSumMethod]) "Sum" =
      (if methodEligible fooSumMethod then mkMethodType fooSumMethod else none) ∧
    (registerMethods [fooSumMethod]) "Sum" =
      some ⟨"Sum", .prim "Args" "main" .structK, .ptrT GoType.goInt⟩ :=
  ⟨(C5_registerMethods [fooSumMethod] (by decide)).1 fooSumMethod
      (List.mem_cons_self fooSumMethod []),
   by decide⟩

/-- Claim C7: with a nonempty server list, `Get(RoundRobinSelect)` returns
`servers[index % n]` and replaces `index` by `(index + 1) % n`; over any
`N = m·n` consecutive round-robin calls each server is returned exactly
`m = N/n` times; with an empty server list every mode yields the
no-available-servers error. -/
theorem C7_roundRobin_get :
    (∀ (servers : List String) (i rnd : Nat), servers.length ≠ 0 →
      MultiServerDiscovery.get ⟨servers, i⟩ RoundRobinSelect rnd =
        .ok (servers.getD (i % servers.length) "",
             ⟨servers, (i + 1) % servers.length⟩)) ∧
    (∀ (servers : List String) (i m j : Nat), servers.Nodup →
      j < servers.length →
      (MultiServerDiscovery.getRRList ⟨servers, i⟩ (m * servers.length)).count
        (servers.getD j "") = m) ∧
    (∀ (i mode rnd : Nat),
      MultiServerDiscovery.get ⟨[], i⟩ mode rnd =
        .error "rpc discovery: no available servers") :=
  ⟨fun servers i rnd hne => rr_get_step servers i rnd hne,
   fun servers i m j hnd hj => count_rr_list servers hnd i m j hj,
   fun _ _ _ => rfl⟩

/-- Witness for `C7_roundRobin_get`: three servers, randomized initial
cursor `7`; one step returns `"b"` and advances the cursor; six calls
return each server exactly twice; the empty list errors. -/
theorem C7_roundRobin_get_witness :
    MultiServerDiscovery.get ⟨["a", "b", "c"], 7⟩ RoundRobinSelect 0 =
      .ok ("b", ⟨["a", "b", "c"], 2⟩) ∧
    (MultiServerDiscovery.getRRList ⟨["a", "b", "c"], 7⟩ 6).count "b" = 2 ∧
    MultiServerDiscovery.get ⟨[], 0⟩ RandomSelect 0 =
      .error "rpc discovery: no available servers" :=
  ⟨C7_roundRobin_get.1 ["a", "b", "c"] 7 0 (by decide),
   C7_roundRobin_get.2.1 ["a", "b", "c"] 7 2 1 (by decide) (by decide),
   C7_roundRobin_get.2.2 0 RandomSelect 0⟩

/-! ## C1 — `handleRequest` timeout path -/

lemma hrInv_step {D : Nat} {dStr : String} {h0 : Header} {callErr : Option String}
    {s s' : HRState} (hstep : HRStep D dStr h0 callErr s s')
    (hinv : hrInv dStr h0 callErr s) : hrInv dStr h0 callErr s' := by
  cases hstep <;> simp_all [hrInv]

lemma hrInv_reachable {D : Nat} {dStr : String} {h0 : Header} {callErr : Option String}
    {s : HRState} (h : hrReachable D dStr h0 callErr s) : hrInv dStr h0 callErr s := by
  induction h with
  | refl => exact Or.inl ⟨rfl, Or.inl rfl, rfl⟩
  | tail _ hstep ih => exact hrInv_step hstep ih

lemma hrTimedOut_frozen {D : Nat} {dStr : String} {h0 : Header} {callErr : Option String}
    {s s' : HRState}
    (hr : Relation.ReflTransGen (HRStep D dStr h0 callErr) s s')
    (hm : s.main = .timedOut) (hw : s.worker = .running ∨ s.worker = .atCalled) :
    s'.main = .timedOut ∧ (s'.worker = .running ∨ s'.worker = .atCalled) ∧
      s'.responses = s.responses := by
  induction hr with
  | refl => exact ⟨hm, hw, rfl⟩
  | tail _ hstep ih =>
    obtain ⟨ihm, ihw, ihr⟩ := ih
    cases hstep <;> simp_all

/-- Claim C1: whenever the `handleRequest` system (handle timeout `D > 0`)
reaches a state in which the timer branch of the `select` was taken — the
method invocation had not completed, so the worker had not passed the
`called` rendezvous — exactly one response has been written: the request
header stamped with the timeout error text, carrying the placeholder body.
The still-running invocation is not interrupted (the worker remains able to
finish the method), but it can never pass the `called` rendezvous again, so
in every later state the response list is unchanged: no second response for
this request is ever written. -/
theorem C1_handleRequest_timeout (D : Nat) (dStr : String) (h0 : Header)
    (callErr : Option String) (s : HRState)
    (hreach : hrReachable D dStr h0 callErr s) (htimed : s.main = .timedOut) :
    s.responses = [timeoutResponse h0 dStr] ∧
    (timeoutResponse h0 dStr).h.Error = timeoutErrorText dStr ∧
    (timeoutResponse h0 dStr).body = .placeholder ∧
    (s.worker = .running ∨ s.worker = .atCalled) ∧
    (∀ s', Relation.ReflTransGen (HRStep D dStr h0 callErr) s s' →
      s'.responses = [timeoutResponse h0 dStr] ∧
      (s'.worker = .running ∨ s'.worker = .atCalled)) := by
  have hinv := hrInv_reachable hreach
  have hcase : (s.worker = .running ∨ s.worker = .atCalled) ∧
      s.responses = [timeoutResponse h0 dStr] := by
    rcases hinv with ⟨h1, -, -⟩ | ⟨h1, -, -⟩ | ⟨h1, -, -⟩ | ⟨h1, -, -⟩ | ⟨-, h2, h3⟩ <;>
      first
        | exact absurd (h1 ▸ htimed) (by simp)
        | exact ⟨h2, h3⟩
  refine ⟨hcase.2, rfl, rfl, hcase.1, fun s' hs' => ?_⟩
  obtain ⟨-, hw', hr'⟩ := hrTimedOut_frozen hs' htimed hcase.1
  exact ⟨hr' ▸ hcase.2, hw'⟩

/-- Witness for `C1_handleRequest_timeout`: with `D = 500ms` the timer
fires from the initial state; the reached state carries exactly the
timeout response. -/
theorem C1_handleRequest_timeout_witness :
    hrReachable 500000000 "500ms" ⟨"Foo.Sum", 1, ""⟩ none
      ⟨.running, .timedOut, [timeoutResponse ⟨"Foo.Sum", 1, ""⟩ "500ms"]⟩ ∧
    (⟨.running, .timedOut, [timeoutResponse ⟨"Foo.Sum", 1, ""⟩ "500ms"]⟩ :
        HRState).responses = [timeoutResponse ⟨"Foo.Sum", 1, ""⟩ "500ms"] ∧
    timeoutResponse ⟨"Foo.Sum", 1, ""⟩ "500ms" =
      ⟨⟨"Foo.Sum", 1, "rpc server: request timeout: expect within 500ms"⟩,
       .placeholder⟩ :=
  have hreach : hrReachable 500000000 "500ms" ⟨"Foo.Sum", 1, ""⟩ none
      ⟨.running, .timedOut, [timeoutResponse ⟨"Foo.Sum", 1, ""⟩ "500ms"]⟩ :=
    Relation.ReflTransGen.single (HRStep.timerFires .running [] (by decide))
  ⟨hreach,
   (C1_handleRequest_timeout 500000000 "500ms" ⟨"Foo.Sum", 1, ""⟩ none _ hreach rfl).1,
   rfl⟩

/-! ## C6 — `Broadcast` -/

lemma firstError_append_one {V : Type} (l : List (Except String V)) (o : Except String V) :
    firstError (l ++ [o]) =
      (firstError l).or (match o with | .error m => some m | .ok _ => none) := by
  rw [firstError, firstError, List.filterMap_append, List.head?_append]
  cases o <;> rfl

lemma firstOk_append_one {V : Type} (l : List (Except String V)) (o : Except String V) :
    firstOk (l ++ [o]) =
      (firstOk l).or (match o with | .ok v => some v | .error _ => none) := by
  rw [firstOk, firstOk, List.filterMap_append, List.head?_append]
  cases o <;> rfl

lemma broadcastStep_inv {V : Type} {callerSlot : Option V}
    {processed : List (Except String V)} {st : BroadcastState V} (o : Except String V)
    (h : broadcastMergeInv callerSlot processed st) :
    broadcastMergeInv callerSlot (processed ++ [o]) (broadcastStep st o) := by
  obtain ⟨he, hc, hnone, hsome⟩ := h
  cases o with
  | error msg =>
    have hfo : firstOk (processed ++ [Except.error msg]) = firstOk processed := by
      rw [firstOk_append_one]
      cases firstOk processed <;> rfl
    have hfe : firstError (processed ++ [Except.error msg]) =
        (firstError processed).or (some msg) := firstError_append_one processed _
    cases hE : st.e with
    | none =>
      have hfep : firstError processed = none := hE ▸ he.symm
      refine ⟨?_, ?_, ?_, ?_⟩
      · simp [broadcastStep, hE, hfe, hfep]
      · simp [broadcastStep, hE, hfe, hfep, hc]
      · intro hcs
        obtain ⟨h1, h2, h3⟩ := hnone hcs
        simp [broadcastStep, hE, h1, h2, h3]
      · intro v0 hcs
        obtain ⟨hno, hyes⟩ := hsome v0 hcs
        constructor
        · intro hfo'
          rw [hfo] at hfo'
          obtain ⟨h1, h2, h3⟩ := hno hfo'
          simp [broadcastStep, hE, h1, h2, h3]
        · intro v hfo'
          rw [hfo] at hfo'
          obtain ⟨h1, h2, h3⟩ := hyes v hfo'
          simp [broadcastStep, hE, h1, h2, h3]
    | some m0 =>
      have hfep : firstError processed = some m0 := hE ▸ he.symm
      refine ⟨?_, ?_, ?_, ?_⟩
      · simp [broadcastStep, hE, hfe, hfep, he]
      · simp [broadcastStep, hE, hfe, hfep, hc]
      · intro hcs
        obtain ⟨h1, h2, h3⟩ := hnone hcs
        simp [broadcastStep, hE, h1, h2, h3]
      · intro v0 hcs
        obtain ⟨hno, hyes⟩ := hsome v0 hcs
        constructor
        · intro hfo'
          rw [hfo] at hfo'
          obtain ⟨h1, h2, h3⟩ := hno hfo'
          simp [broadcastStep, hE, h1, h2, h3]
        · intro v hfo'
          rw [hfo] at hfo'
          obtain ⟨h1, h2, h3⟩ := hyes v hfo'
          simp [broadcastStep, hE, h1, h2, h3]
  | ok v =>
    have hfe : firstError (processed ++ [Except.ok v]) = firstError processed := by
      rw [firstError_append_one]
      cases firstError processed <;> rfl
    have hfo : firstOk (processed ++ [Except.ok v]) =
        (firstOk processed).or (some v) := firstOk_append_one processed _
    cases hcs : callerSlot with
    | none =>
      obtain ⟨h1, h2, h3⟩ := hnone hcs
      refine ⟨?_, ?_, ?_, ?_⟩
      · simp [broadcastStep, h1, he, hfe]
      · simp [broadcastStep, h1, hc, hfe]
      · intro _
        simp [broadcastStep, h1, h2, h3]
      · intro v0 hcs'
        cases hcs'
    | some v0 =>
      obtain ⟨hno, hyes⟩ := hsome v0 hcs
      cases hFO : firstOk processed with
      | none =>
        obtain ⟨h1, h2, h3⟩ := hno hFO
        refine ⟨?_, ?_, ?_, ?_⟩
        · simp [broadcastStep, h1, he, hfe]
        · simp [broadcastStep, h1, hc, hfe]
        · intro hcs'
          cases hcs'
        · intro v0' hcs'
          cases hcs'
          constructor
          · intro hfo'
            rw [hfo, hFO] at hfo'
            cases hfo'
          · intro v' hfo'
            rw [hfo, hFO] at hfo'
            cases hfo'
            simp [broadcastStep, h1, h3]
      | some w =>
        obtain ⟨h1, h2, h3⟩ := hyes w hFO
        refine ⟨?_, ?_, ?_, ?_⟩
        · simp [broadcastStep, h1, he, hfe]
        · simp [broadcastStep, h1, hc, hfe]
        · intro hcs'
          cases hcs'
        · intro v0' hcs'
          cases hcs'
          constructor
          · intro hfo'
            rw [hfo, hFO] at hfo'
            cases hfo'
          · intro v' hfo'
            rw [hfo, hFO] at hfo'
            cases hfo'
            simp [broadcastStep, h1, h2, h3]

lemma broadcast_fold_inv {V : Type} (callerSlot : Option V) :
    ∀ (suffix processed : List (Except String V)) (st : BroadcastState V),
      broadcastMergeInv callerSlot processed st →
      broadcastMergeInv callerSlot (processed ++ suffix) (suffix.foldl broadcastStep st) := by
  intro suffix
  induction suffix with
  | nil => intro processed st h; simpa using h
  | cons o rest ih =>
    intro processed st h
    rw [List.foldl_cons, show processed ++ o :: rest = (processed ++ [o]) ++ rest by simp]
    exact ih _ _ (broadcastStep_inv o h)

lemma broadcastInit_inv {V : Type} (callerSlot : Option V) :
    broadcastMergeInv callerSlot [] (broadcastInit callerSlot) := by
  refine ⟨rfl, rfl, ?_, ?_⟩
  · intro hcs
    simp [broadcastInit, hcs]
  · intro v0 hcs
    refine ⟨fun _ => by simp [broadcastInit, hcs], fun v hv => ?_⟩
    cases hv

lemma broadcast_inv {V : Type} (outcomes : List (Except String V)) (callerSlot : Option V) :
    broadcastMergeInv callerSlot outcomes (broadcast outcomes callerSlot) := by
  have h := broadcast_fold_inv callerSlot outcomes [] (broadcastInit callerSlot)
    (broadcastInit_inv callerSlot)
  simpa [broadcast] using h

lemma firstError_eq_none_iff {V : Type} (outcomes : List (Except String V)) :
    firstError outcomes = none ↔ ∀ o ∈ outcomes, ∃ v, o = .ok v := by
  rw [firstError, List.head?_eq_none_iff, List.filterMap_eq_nil]
  constructor
  · intro h o ho
    have h2 := h o ho
    cases o with
    | error m => cases h2
    | ok v => exact ⟨v, rfl⟩
  · intro h o ho
    obtain ⟨v, rfl⟩ := h o ho
    rfl

lemma firstOk_mem {V : Type} (outcomes : List (Except String V)) (v : V)
    (h : firstOk outcomes = some v) : Except.ok v ∈ outcomes := by
  rw [firstOk] at h
  have hv : v ∈ outcomes.filterMap
      (fun o => match o with | .ok v => some v | .error _ => none) :=
    List.mem_of_mem_head? (h ▸ rfl)
  obtain ⟨o, ho, hfo⟩ := List.mem_filterMap.mp hv
  cases o with
  | error m => cases hfo
  | ok w => cases hfo; exact ho

/-- Claim C6: in `Broadcast`, the first failing call (in the order the
tasks enter the mutex-protected merge section) records its error and
triggers the one `cancel()` of the derived child context; after all tasks
are awaited the returned error is nil iff no call errored; and when the
caller's reply slot is non-nil and at least one call succeeds, exactly one
successful peer's clone is copied into the caller's slot (the first
successful one, which is one of the outcomes); a nil caller slot is never
written. -/
theorem C6_broadcast_merge (V : Type) (outcomes : List (Except String V))
    (callerSlot : Option V) :
    ((broadcast outcomes callerSlot).e = none ↔ ∀ o ∈ outcomes, ∃ v, o = .ok v) ∧
    (broadcast outcomes callerSlot).e = firstError outcomes ∧
    (broadcast outcomes callerSlot).cancelCount =
      (if firstError outcomes = none then 0 else 1) ∧
    (∀ v0, callerSlot = some v0 →
      (∀ v, firstOk outcomes = some v →
        (broadcast outcomes callerSlot).callerReply = some v ∧
        (broadcast outcomes callerSlot).copyCount = 1 ∧ Except.ok v ∈ outcomes) ∧
      (firstOk outcomes = none →
        (broadcast outcomes callerSlot).callerReply = some v0 ∧
        (broadcast outcomes callerSlot).copyCount = 0)) ∧
    (callerSlot = none →
      (broadcast outcomes callerSlot).callerReply = none ∧
      (broadcast outcomes callerSlot).copyCount = 0) := by
  obtain ⟨he, hc, hnone, hsome⟩ := broadcast_inv outcomes callerSlot
  refine ⟨?_, he, hc, ?_, ?_⟩
  · rw [he]
    exact firstError_eq_none_iff outcomes
  · intro v0 hcs
    obtain ⟨hno, hyes⟩ := hsome v0 hcs
    exact ⟨fun v hv => ⟨(hyes v hv).2.1, (hyes v hv).2.2, firstOk_mem outcomes v hv⟩,
           fun hn => ⟨(hno hn).2.1, (hno hn).2.2⟩⟩
  · intro hcs
    obtain ⟨-, h2, h3⟩ := hnone hcs
    exact ⟨h2, h3⟩

/-- Witness for `C6_broadcast_merge`: three peers where the second fails —
the error is recorded and cancel issued once, and the first success's reply
is the one copied. -/
theorem C6_broadcast_merge_witness :
    (broadcast (V := Nat) [.ok 4, .error "down", .ok 9] (some 0)).e = some "down" ∧
    (broadcast (V := Nat) [.ok 4, .error "down", .ok 9] (some 0)).cancelCount = 1 ∧
    (broadcast (V := Nat) [.ok 4, .error "down", .ok 9] (some 0)).callerReply = some 4 ∧
    (broadcast (V := Nat) [.ok 4, .error "down", .ok 9] (some 0)).copyCount = 1 :=
  ⟨(C6_broadcast_merge Nat [.ok 4, .error "down", .ok 9] (some 0)).2.1,
   (C6_broadcast_merge Nat [.ok 4, .error "down", .ok 9] (some 0)).2.2.1,
   (((C6_broadcast_merge Nat [.ok 4, .error "down", .ok 9] (some 0)).2.2.2.1
       0 rfl).1 4 rfl).1,
   (((C6_broadcast_merge Nat [.ok 4, .error "down", .ok 9] (some 0)).2.2.2.1
       0 rfl).1 4 rfl).2.1⟩

end MiniRpc
